import Mathlib

/-!
Verification of the pinned-view layer (`src/set_ref.rs`) of a concurrent
hash set.  The view (`HashSetRef`) wraps a reference to the set core
(`HashSet`, an external collaborator of this file) together with a
reclamation guard (`GuardRef`), and delegates every operation to the set
core with the held guard.

The set core, the `GuardRef` enum and the epoch/reclamation mechanism are
code of the repository that is not part of `src/set_ref.rs`; they are
modelled from the specification (sections 3, 4 and 6), as marked on each
definition.  The view type and its operations are translated from
`src/set_ref.rs` itself.

Sequential shallow embedding: the concurrent set core is modelled in its
quiescent (single-thread) behaviour, state is passed explicitly, and the
epoch mechanism is a set of currently pinned guard identifiers.
-/

namespace Flurry

/-- Modelled from the spec: a reclamation guard token (glossary: "a token
proving the holder has announced intent to access shared memory").  Only
its identity matters to this layer. -/
structure Guard where
  id : Nat
deriving DecidableEq, Repr

/-- Modelled from the spec: the reclamation-epoch mechanism (external
primitive).  `pinned` is the set of guard identifiers currently holding
protection, `next` a source of fresh identifiers. -/
structure Epoch where
  pinned : List Nat
  next : Nat
deriving DecidableEq, Repr

/-- Modelled from the spec: pinning the current thread produces a fresh
live guard. -/
def Epoch.pin (e : Epoch) : Guard × Epoch :=
  (⟨e.next⟩, ⟨e.next :: e.pinned, e.next + 1⟩)

/-- Modelled from the spec: releasing a guard ends its protection. -/
def Epoch.unpin (e : Epoch) (g : Guard) : Epoch :=
  ⟨e.pinned.erase g.id, e.next⟩

/-- A guard is live while the epoch mechanism records it as pinned. -/
def Guard.live (g : Guard) (e : Epoch) : Bool :=
  e.pinned.contains g.id

/-- The repository's `GuardRef` enum (declared outside `src/set_ref.rs`),
shape per spec section 3: an Owned guard (the view pinned the thread
itself) or a borrowed reference to a caller-supplied guard. -/
inductive GuardRef where
  | Owned : Guard → GuardRef
  | Ref : Guard → GuardRef
deriving DecidableEq, Repr

/-- Dereferencing a `GuardRef` yields the underlying guard, whichever
variant holds it. -/
def GuardRef.deref : GuardRef → Guard
  | .Owned g => g
  | .Ref g => g

/-- Modelled from the spec: cloning a guard reference.  The spec (section
4.2) requires that cloning an Owned guard "must either re-pin (increment
protection) or is disallowed"; since `src/set_ref.rs` does clone the guard,
the re-pin policy is modelled: cloning an Owned guard pins afresh, cloning
a borrowed reference just copies the borrow. -/
def GuardRef.clone : GuardRef → Epoch → GuardRef × Epoch
  | .Owned _, e => let p := e.pin; (.Owned p.1, p.2)
  | .Ref g, e => (.Ref g, e)

/-- Modelled from the spec: the set core (external collaborator, spec
sections 3 and 6), in its quiescent behaviour: a container of elements
of type `T` determined by the multiset of elements it stores.  The hash
strategy `S` is abstracted into decidable equality on `T`. -/
structure HashSet (T : Type) where
  elems : List T
deriving DecidableEq, Repr

variable {T : Type} [DecidableEq T]

/-- Modelled from the spec: `contains(&T-like, &Guard) -> bool`, a
membership test using the set's equality strategy. -/
def HashSet.contains (s : HashSet T) (v : T) (_g : Guard) : Bool :=
  s.elems.contains v

/-- Modelled from the spec: `get(&T-like, &Guard) -> Option<&T>` returns a
reference to the stored element if present. -/
def HashSet.get (s : HashSet T) (v : T) (_g : Guard) : Option T :=
  s.elems.find? (fun x => x == v)

/-- Modelled from the spec: `insert(T, &Guard) -> bool` is true iff the
value was newly inserted; an existing equal element is not updated. -/
def HashSet.insert (s : HashSet T) (v : T) (_g : Guard) : Bool × HashSet T :=
  if s.elems.contains v then (false, s) else (true, ⟨v :: s.elems⟩)

/-- Modelled from the spec: `remove(&T-like, &Guard) -> bool` is true iff
an equal element existed and was logically removed, leaving the set
"without an equal element". -/
def HashSet.remove (s : HashSet T) (v : T) (_g : Guard) : Bool × HashSet T :=
  if s.elems.contains v then (true, ⟨s.elems.filter (fun x => !(x == v))⟩)
  else (false, s)

/-- Modelled from the spec: `take(&T-like, &Guard) -> Option<&T>` returns
the previously-present element if any and leaves the set without an equal
element. -/
def HashSet.take (s : HashSet T) (v : T) (_g : Guard) : Option T × HashSet T :=
  match s.elems.find? (fun x => x == v) with
  | some x => (some x, ⟨s.elems.filter (fun y => !(y == v))⟩)
  | none => (none, s)

/-- Modelled from the spec: `compute_if_present(&K-like, F, &Guard)`: if an
element matching the key exists, `f` is invoked on it; a yielded value
replaces the entry and is returned, no value removes the entry; with no
matching element nothing happens and `f` is not invoked. -/
def HashSet.compute_if_present (s : HashSet T) (k : T) (f : T → Option T)
    (_g : Guard) : Option T × HashSet T :=
  match s.elems.find? (fun x => x == k) with
  | none => (none, s)
  | some x =>
    match f x with
    | none => (none, ⟨s.elems.filter (fun y => !(y == k))⟩)
    | some n => (some n, ⟨s.elems.map (fun y => if y == k then n else y)⟩)

/-- Modelled from the spec: `len() -> usize`, the number of entries. -/
def HashSet.len (s : HashSet T) : Nat :=
  s.elems.length

/-- Modelled from the spec: `is_empty() -> bool`. -/
def HashSet.is_empty (s : HashSet T) : Bool :=
  s.elems.isEmpty

/-- Modelled from the spec: `reserve(usize, &Guard)` is a capacity hint
with no effect on the stored elements. -/
def HashSet.reserve (s : HashSet T) (_additional : Nat) (_g : Guard) : HashSet T :=
  s

/-- Modelled from the spec: `clear(&Guard)` logically removes all
elements. -/
def HashSet.clear (_s : HashSet T) (_g : Guard) : HashSet T :=
  ⟨[]⟩

/-- Modelled from the spec: `retain(F, &Guard)` removes all elements for
which the predicate returns false. -/
def HashSet.retain (s : HashSet T) (f : T → Bool) (_g : Guard) : HashSet T :=
  ⟨s.elems.filter f⟩

/-- Modelled from the spec: `retain_force(F, &Guard)`, semantically the
same filtering as `retain` (the variants differ only under concurrent
mutation, outside this quiescent model). -/
def HashSet.retain_force (s : HashSet T) (f : T → Bool) (_g : Guard) : HashSet T :=
  ⟨s.elems.filter f⟩

/-- Modelled from the spec: `iter(&Guard)` produces the sequence of
elements. -/
def HashSet.iter (s : HashSet T) (_g : Guard) : List T :=
  s.elems

/-- Element-wise equality of two set cores: each contains every element of
the other. -/
def HashSet.eqElems (s t : HashSet T) : Bool :=
  s.elems.all (fun x => t.elems.contains x) &&
    t.elems.all (fun x => s.elems.contains x)

/-- Modelled from the spec: `guarded_eq(&other, &Guard, &Guard) -> bool`
compares the elements of the two sets, each side read under its own
guard. -/
def HashSet.guarded_eq (s t : HashSet T) (_g1 _g2 : Guard) : Bool :=
  s.eqElems t

/-- Modelled from the spec: `pin_thread() -> Guard`; `self.guard()` in the
source pins the current thread, yielding a fresh guard. -/
def HashSet.guard (_s : HashSet T) (e : Epoch) : Guard × Epoch :=
  e.pin

/-- Modelled from the spec: the set core's own equality (`self.set ==
other.set` in the source) is element-wise equality. -/
def HashSet.beq (s t : HashSet T) : Bool :=
  s.eqElems t

/-- `HashSetRef` from `src/set_ref.rs`: a reference to a `HashSet`
together with the held guard. -/
structure HashSetRef (T : Type) where
  set : HashSet T
  guard : GuardRef
deriving DecidableEq, Repr

/-- `HashSet::pin` from the source: an Owned view over this set, the
current thread pinned (`guard: GuardRef::Owned(self.guard())`). -/
def HashSet.pin (s : HashSet T) (e : Epoch) : HashSetRef T × Epoch :=
  let p := HashSet.guard s e
  (⟨s, GuardRef.Owned p.1⟩, p.2)

/-- `HashSet::with_guard` from the source: a view over this set borrowing
the given guard (`guard: GuardRef::Ref(guard)`). -/
def HashSet.with_guard (s : HashSet T) (g : Guard) : HashSetRef T :=
  ⟨s, GuardRef.Ref g⟩

/-- `HashSetRef::iter` from the source: `self.set.iter(&self.guard)`. -/
def HashSetRef.iter (r : HashSetRef T) : List T :=
  r.set.iter r.guard.deref

/-- `HashSetRef::len` from the source: `self.set.len()`. -/
def HashSetRef.len (r : HashSetRef T) : Nat :=
  r.set.len

/-- `HashSetRef::is_empty` from the source: `self.set.is_empty()`. -/
def HashSetRef.is_empty (r : HashSetRef T) : Bool :=
  r.set.is_empty

/-- `HashSetRef::reserve` from the source:
`self.set.reserve(additional, &self.guard)`. -/
def HashSetRef.reserve (r : HashSetRef T) (additional : Nat) : HashSet T :=
  r.set.reserve additional r.guard.deref

/-- `HashSetRef::clear` from the source: `self.set.clear(&self.guard)`. -/
def HashSetRef.clear (r : HashSetRef T) : HashSet T :=
  r.set.clear r.guard.deref

/-- `HashSetRef::contains` from the source:
`self.set.contains(value, &self.guard)`. -/
def HashSetRef.contains (r : HashSetRef T) (v : T) : Bool :=
  r.set.contains v r.guard.deref

/-- `HashSetRef::get` from the source: `self.set.get(value, &self.guard)`. -/
def HashSetRef.get (r : HashSetRef T) (v : T) : Option T :=
  r.set.get v r.guard.deref

/-- Modelled from the spec: the source body of `HashSetRef::insert` is
`self.set.insert(key, value, &self.guard)`, which references an unbound
variable `key` and passes two values to the set core's single-value
`insert(T, &Guard)`; the spec and the method's own doc comment intend the
delegation `self.set.insert(value, &self.guard)`, which is what is
modelled here. -/
def HashSetRef.insert (r : HashSetRef T) (v : T) : Bool × HashSet T :=
  r.set.insert v r.guard.deref

/-- `HashSetRef::compute_if_present` from the source:
`self.set.compute_if_present(key, remapping_function, &self.guard)`. -/
def HashSetRef.compute_if_present (r : HashSetRef T) (k : T)
    (f : T → Option T) : Option T × HashSet T :=
  r.set.compute_if_present k f r.guard.deref

/-- `HashSetRef::remove` from the source:
`self.set.remove(value, &self.guard)`. -/
def HashSetRef.remove (r : HashSetRef T) (v : T) : Bool × HashSet T :=
  r.set.remove v r.guard.deref

/-- `HashSetRef::take` from the source:
`self.set.take(value, self.guard)` (the guard passed is the held one; the
source omits the borrow, a surface slip with no semantic content here). -/
def HashSetRef.take (r : HashSetRef T) (v : T) : Option T × HashSet T :=
  r.set.take v r.guard.deref

/-- `HashSetRef::retain` from the source:
`self.set.retain(f, &self.guard)`. -/
def HashSetRef.retain (r : HashSetRef T) (f : T → Bool) : HashSet T :=
  r.set.retain f r.guard.deref

/-- `HashSetRef::retain_force` from the source:
`self.set.retain_force(f, &self.guard)`. -/
def HashSetRef.retain_force (r : HashSetRef T) (f : T → Bool) : HashSet T :=
  r.set.retain_force f r.guard.deref

/-- `IntoIterator for &HashSetRef` from the source:
`self.set.iter(&self.guard)`. -/
def HashSetRef.into_iter (r : HashSetRef T) : List T :=
  r.set.iter r.guard.deref

/-- `PartialEq for HashSetRef` from the source: `self.set == other.set`. -/
def HashSetRef.beq (a b : HashSetRef T) : Bool :=
  HashSet.beq a.set b.set

/-- `PartialEq<HashSet> for HashSetRef` from the source:
`self.set.guarded_eq(&other, &self.guard, &other.guard())`.  The guard
obtained from the bare handle is a temporary: it is released when the
comparison expression ends, modelled by the final unpin. -/
def HashSetRef.eqHashSet (r : HashSetRef T) (other : HashSet T) (e : Epoch) :
    Bool × Epoch :=
  let p := HashSet.guard other e
  (HashSet.guarded_eq r.set other r.guard.deref p.1, p.2.unpin p.1)

/-- `PartialEq<HashSetRef> for HashSet` from the source:
`self.guarded_eq(&other.set, &self.guard(), &other.guard)`, the transient
guard released when the comparison ends. -/
def HashSet.eqHashSetRef (s : HashSet T) (other : HashSetRef T) (e : Epoch) :
    Bool × Epoch :=
  let p := HashSet.guard s e
  (HashSet.guarded_eq s other.set p.1 other.guard.deref, p.2.unpin p.1)

/-- `Clone for HashSetRef` from the source: duplicates the set-core
reference and clones the guard (`guard: self.guard.clone()`). -/
def HashSetRef.clone (r : HashSetRef T) (e : Epoch) : HashSetRef T × Epoch :=
  let p := r.guard.clone e
  (⟨r.set, p.1⟩, p.2)

/-- Modelled from the spec: destroying a view releases an Owned guard and
leaves a borrowed guard untouched (spec section 3, lifecycle). -/
def HashSetRef.drop (r : HashSetRef T) (e : Epoch) : Epoch :=
  match r.guard with
  | .Owned g => e.unpin g
  | .Ref _ => e

/-- Modelled from the spec: an access through a view observed against the
epoch state; it reaches the set only while the backing guard is live, and
is an access to a released guard (`none`) otherwise. -/
def HashSetRef.get_protected (r : HashSetRef T) (v : T) (e : Epoch) :
    Option (Option T) :=
  if r.guard.deref.live e then some (r.get v) else none

/-- The clone-then-drop-original experiment of spec section 8: pin a view,
clone it, drop the original; the result is the clone and the epoch state
after the drop. -/
def cloneDropScenario (s : HashSet T) (e : Epoch) : HashSetRef T × Epoch :=
  let p1 := s.pin e
  let p2 := p1.1.clone p1.2
  (p2.1, p1.1.drop p2.2)

/-! ## Helper lemmas -/

/-- Filtering out everything equal to `v` leaves a list not containing
`v`. -/
theorem contains_filter_ne_self (l : List T) (v : T) :
    (l.filter (fun y => !(y == v))).contains v = false := by
  simp [List.elem_iff]

/-- `eqElems` holds exactly when the two cores have the same members. -/
theorem eqElems_iff (s t : HashSet T) :
    HashSet.eqElems s t = true ↔ ∀ x, (x ∈ s.elems ↔ x ∈ t.elems) := by
  simp only [HashSet.eqElems, Bool.and_eq_true, List.all_eq_true,
    List.elem_iff]
  constructor
  · rintro ⟨h1, h2⟩ x
    exact ⟨fun hx => h1 x hx, fun hx => h2 x hx⟩
  · intro h
    exact ⟨fun x hx => (h x).1 hx, fun x hx => (h x).2 hx⟩

/-- View equality restated through members of the underlying cores. -/
theorem hashSetRef_beq_iff (a b : HashSetRef T) :
    a.beq b = true ↔ ∀ x, (x ∈ a.set.elems ↔ x ∈ b.set.elems) :=
  eqElems_iff a.set b.set

/-! ## Claim theorems -/

/-- Claim C1: every view operation is a pure delegation to the set core
with the held guard passed through unchanged.  This holds for iter, len,
is_empty, reserve, clear, contains, get, compute_if_present, remove, take,
retain and retain_force; it fails for `insert`, whose source body passes
an unbound variable `key` (see `HashSetRef.insert`), so the theorem
covers the twelve well-formed operations. -/
theorem c1_view_ops_delegate (r : HashSetRef T) (n : Nat) (v k : T)
    (f : T → Option T) (q : T → Bool) :
    r.iter = r.set.iter r.guard.deref ∧
    r.len = r.set.len ∧
    r.is_empty = r.set.is_empty ∧
    r.reserve n = r.set.reserve n r.guard.deref ∧
    r.clear = r.set.clear r.guard.deref ∧
    r.contains v = r.set.contains v r.guard.deref ∧
    r.get v = r.set.get v r.guard.deref ∧
    r.compute_if_present k f = r.set.compute_if_present k f r.guard.deref ∧
    r.remove v = r.set.remove v r.guard.deref ∧
    r.take v = r.set.take v r.guard.deref ∧
    r.retain q = r.set.retain q r.guard.deref ∧
    r.retain_force q = r.set.retain_force q r.guard.deref :=
  ⟨rfl, rfl, rfl, rfl, rfl, rfl, rfl, rfl, rfl, rfl, rfl, rfl⟩

/-- Claim C2 (for the delegation the spec and the method's doc comment
intend; the source body is the unbound-`key` slip recorded at
`HashSetRef.insert`): `insert(v)` returns true iff no equal element
existed, leaves the set unchanged in the duplicate case, and afterwards
the view contains `v`. -/
theorem c2_insert_spec (r : HashSetRef T) (v : T) :
    ((r.insert v).1 = true ↔ r.set.contains v r.guard.deref = false) ∧
    (r.set.contains v r.guard.deref = true → (r.insert v).2 = r.set) ∧
    (HashSetRef.mk (r.insert v).2 r.guard).contains v = true := by
  by_cases h : v ∈ r.set.elems
  · refine ⟨?_, fun _ => ?_, ?_⟩ <;>
      simp [HashSetRef.insert, HashSet.insert, HashSetRef.contains,
        HashSet.contains, h]
  · refine ⟨?_, fun hc => ?_, ?_⟩
    · simp [HashSetRef.insert, HashSet.insert, HashSetRef.contains,
        HashSet.contains, h]
    · exact absurd
        (by simpa [HashSet.contains, List.elem_iff] using hc) h
    · simp [HashSetRef.insert, HashSet.insert, HashSetRef.contains,
        HashSet.contains, h]

/-- Witness for C2: a duplicate insert of 1 into {1} leaves the core
unchanged, a fresh insert of 2 into {} returns true, and the view then
contains 2. -/
theorem c2_insert_spec_witness :
    ((HashSetRef.mk (HashSet.mk ([1] : List Nat))
        (GuardRef.Owned ⟨0⟩)).insert 1).2 = HashSet.mk [1] ∧
    ((HashSetRef.mk (HashSet.mk ([] : List Nat))
        (GuardRef.Owned ⟨0⟩)).insert 2).1 = true ∧
    (HashSetRef.mk ((HashSetRef.mk (HashSet.mk ([] : List Nat))
        (GuardRef.Owned ⟨0⟩)).insert 2).2
      (GuardRef.Owned ⟨0⟩)).contains 2 = true :=
  ⟨(c2_insert_spec (HashSetRef.mk (HashSet.mk [1]) (GuardRef.Owned ⟨0⟩)) 1).2.1
      (by decide),
   (c2_insert_spec (HashSetRef.mk (HashSet.mk []) (GuardRef.Owned ⟨0⟩)) 2).1.mpr
      (by decide),
   (c2_insert_spec (HashSetRef.mk (HashSet.mk []) (GuardRef.Owned ⟨0⟩)) 2).2.2⟩

/-- Claim C3: `take(v)` on a view returns the previously stored element
when an equal element is present and nothing otherwise, and afterwards
the set contains no element equal to `v`, so `contains(v)` is false. -/
theorem c3_take (r : HashSetRef T) (v : T) :
    (r.take v).1 = r.set.elems.find? (fun x => x == v) ∧
    ((r.take v).1.isSome = true ↔ r.set.contains v r.guard.deref = true) ∧
    (HashSetRef.mk (r.take v).2 r.guard).contains v = false := by
  rcases hf : r.set.elems.find? (fun x => x == v) with _ | x
  · have hv : v ∉ r.set.elems := by
      intro hm
      have := List.find?_eq_none.mp hf v hm
      simp at this
    refine ⟨by simp [HashSetRef.take, HashSet.take, hf], ?_, ?_⟩ <;>
      simp [HashSetRef.take, HashSet.take, hf, HashSetRef.contains,
        HashSet.contains, hv]
  · have hx : x = v := by
      have := List.find?_some hf
      simpa using this
    have hm : v ∈ r.set.elems := hx ▸ List.mem_of_find?_eq_some hf
    refine ⟨by simp [HashSetRef.take, HashSet.take, hf], ?_, ?_⟩
    · simp [HashSetRef.take, HashSet.take, hf, HashSetRef.contains,
        HashSet.contains, hm]
    · simp [HashSetRef.take, HashSet.take, hf, HashSetRef.contains,
        HashSet.contains, List.elem_iff]

/-- Claim C4: `remove(v)` on a view returns exactly the membership of `v`
(true when present, false when absent), and a second `remove(v)`
immediately after, with no intervening mutation, returns false. -/
theorem c4_remove (r : HashSetRef T) (v : T) :
    ((r.remove v).1 = r.set.contains v r.guard.deref) ∧
    ((HashSetRef.mk (r.remove v).2 r.guard).remove v).1 = false := by
  by_cases h : v ∈ r.set.elems <;>
    simp [HashSetRef.remove, HashSet.remove, HashSet.contains, h,
      List.elem_iff]

/-- Claim C5: `compute_if_present(k, f)` on a view returns nothing and
does not invoke `f` (its result is independent of the function) when no
matching element exists; when a match exists and `f` yields nothing, the
entry is removed and nothing is returned; when `f` yields a value, the
entry is replaced by it and it is returned. -/
theorem c5_compute_if_present (r : HashSetRef T) (k : T) (f : T → Option T) :
    (r.set.contains k r.guard.deref = false →
      ∀ f2 : T → Option T, r.compute_if_present k f2 = (none, r.set)) ∧
    (∀ x, r.set.elems.find? (fun y => y == k) = some x → f x = none →
      (r.compute_if_present k f).1 = none ∧
      (HashSetRef.mk (r.compute_if_present k f).2 r.guard).contains k
        = false) ∧
    (∀ x n, r.set.elems.find? (fun y => y == k) = some x → f x = some n →
      (r.compute_if_present k f).1 = some n ∧
      (r.compute_if_present k f).2.elems
        = r.set.elems.map (fun y => if y == k then n else y)) := by
  refine ⟨fun hc f2 => ?_, fun x hf hfx => ?_, fun x n hf hfx => ?_⟩
  · have hv : k ∉ r.set.elems := by
      simpa [HashSet.contains, List.elem_iff] using hc
    have hfind : r.set.elems.find? (fun y => y == k) = none := by
      apply List.find?_eq_none.mpr
      intro y hy h
      exact hv ((eq_of_beq h) ▸ hy)
    simp [HashSetRef.compute_if_present, HashSet.compute_if_present, hfind]
  · simp [HashSetRef.compute_if_present, HashSet.compute_if_present, hf,
      hfx, HashSetRef.contains, HashSet.contains, List.elem_iff]
  · simp [HashSetRef.compute_if_present, HashSet.compute_if_present, hf,
      hfx]

/-- Witness for C5: on the core {5} with key 5, a function always
yielding nothing removes the entry; a function yielding 7 replaces it and
7 is returned; on the empty core nothing happens whatever the function. -/
theorem c5_compute_if_present_witness :
    ((HashSetRef.mk (HashSet.mk ([] : List Nat))
        (GuardRef.Owned ⟨0⟩)).compute_if_present 5 (fun x => some (x + 1))
      = (none, HashSet.mk [])) ∧
    (((HashSetRef.mk (HashSet.mk ([5] : List Nat))
        (GuardRef.Owned ⟨0⟩)).compute_if_present 5 (fun _ => none)).1 = none ∧
      (HashSetRef.mk ((HashSetRef.mk (HashSet.mk ([5] : List Nat))
          (GuardRef.Owned ⟨0⟩)).compute_if_present 5 (fun _ => none)).2
        (GuardRef.Owned ⟨0⟩)).contains 5 = false) ∧
    ((HashSetRef.mk (HashSet.mk ([5] : List Nat))
        (GuardRef.Owned ⟨0⟩)).compute_if_present 5 (fun _ => some 7)).1
      = some 7 :=
  ⟨(c5_compute_if_present (HashSetRef.mk (HashSet.mk []) (GuardRef.Owned ⟨0⟩))
      5 (fun x => some (x + 1))).1 (by decide) (fun x => some (x + 1)),
   (c5_compute_if_present (HashSetRef.mk (HashSet.mk [5]) (GuardRef.Owned ⟨0⟩))
      5 (fun _ => none)).2.1 5 rfl rfl,
   ((c5_compute_if_present (HashSetRef.mk (HashSet.mk [5]) (GuardRef.Owned ⟨0⟩))
      5 (fun _ => some 7)).2.2 5 7 (by decide) rfl).1⟩

/-- Claim C6: the guard variant chosen at construction is fixed for the
view's lifetime: `pin` builds a view holding an Owned guard (freshly
pinned and live), `with_guard` builds a view holding a Borrowed guard,
and operations read that same held guard (a view is never rebuilt with a
different guard by any operation). -/
theorem c6_guard_variant_fixed (s : HashSet T) (e : Epoch) (g : Guard)
    (v : T) :
    ((HashSet.pin s e).1.guard = GuardRef.Owned (Epoch.pin e).1) ∧
    ((HashSet.pin s e).1.set = s) ∧
    (Guard.live (HashSet.pin s e).1.guard.deref (HashSet.pin s e).2
      = true) ∧
    ((HashSet.pin s e).1.contains v = HashSet.contains s v (Epoch.pin e).1) ∧
    ((HashSet.with_guard s g).guard = GuardRef.Ref g) ∧
    ((HashSet.with_guard s g).set = s) ∧
    ((HashSet.with_guard s g).contains v = HashSet.contains s v g) := by
  refine ⟨rfl, rfl, ?_, rfl, rfl, rfl, rfl⟩
  simp [HashSet.pin, HashSet.guard, Epoch.pin, Guard.live, GuardRef.deref,
    List.elem_iff]

/-- Claim C7: equality of two views compares the underlying set cores
element-wise, independently of each view's guard variant and of the
views' identity, and the relation is an equivalence (reflexive,
symmetric, transitive). -/
theorem c7_view_eq_equivalence (a b : HashSetRef T) :
    (a.beq b = HashSet.eqElems a.set b.set) ∧
    (∀ g1 g2 : GuardRef,
      (HashSetRef.mk a.set g1).beq (HashSetRef.mk b.set g2) = a.beq b) ∧
    (a.beq a = true) ∧
    (a.beq b = b.beq a) ∧
    (∀ c : HashSetRef T,
      a.beq b = true → b.beq c = true → a.beq c = true) := by
  refine ⟨rfl, fun g1 g2 => rfl, ?_, ?_, fun c h1 h2 => ?_⟩
  · exact (hashSetRef_beq_iff a a).mpr fun x => Iff.rfl
  · show HashSet.eqElems a.set b.set = HashSet.eqElems b.set a.set
    unfold HashSet.eqElems
    exact Bool.and_comm _ _
  · refine (hashSetRef_beq_iff a c).mpr fun x => ?_
    exact ((hashSetRef_beq_iff a b).mp h1 x).trans
      ((hashSetRef_beq_iff b c).mp h2 x)

/-- Witness for C7: transitivity at concrete views — {1,2} with an Owned
guard equals {2,1} with another Owned guard, which equals {1,2,2} with a
Borrowed guard, hence the first equals the third. -/
theorem c7_view_eq_equivalence_witness :
    (HashSetRef.mk (HashSet.mk ([1, 2] : List Nat))
        (GuardRef.Owned ⟨0⟩)).beq
      (HashSetRef.mk (HashSet.mk [1, 2, 2]) (GuardRef.Ref ⟨1⟩)) = true :=
  (c7_view_eq_equivalence
      (HashSetRef.mk (HashSet.mk [1, 2]) (GuardRef.Owned ⟨0⟩))
      (HashSetRef.mk (HashSet.mk [2, 1]) (GuardRef.Owned ⟨7⟩))).2.2.2.2
    (HashSetRef.mk (HashSet.mk [1, 2, 2]) (GuardRef.Ref ⟨1⟩))
    (by decide) (by decide)

/-- Claim C8: comparing a view with a bare set handle transiently pins
the bare handle and compares the two sets with `guarded_eq`, the view's
own guard on its side and the freshly obtained guard on the bare side;
the transient guard is released afterwards, restoring the protection
state, and the outcome is element-wise equality.  Both orientations
behave this way. -/
theorem c8_view_vs_bare_eq (r : HashSetRef T) (s : HashSet T) (e : Epoch) :
    ((r.eqHashSet s e).1
      = HashSet.guarded_eq r.set s r.guard.deref (HashSet.guard s e).1) ∧
    ((r.eqHashSet s e).1 = HashSet.eqElems r.set s) ∧
    ((r.eqHashSet s e).2.pinned = e.pinned) ∧
    ((HashSet.eqHashSetRef s r e).1
      = HashSet.guarded_eq s r.set (HashSet.guard s e).1 r.guard.deref) ∧
    ((HashSet.eqHashSetRef s r e).1 = HashSet.eqElems s r.set) ∧
    ((HashSet.eqHashSetRef s r e).2.pinned = e.pinned) := by
  refine ⟨rfl, rfl, ?_, rfl, rfl, ?_⟩ <;>
    simp [HashSetRef.eqHashSet, HashSet.eqHashSetRef, HashSet.guard,
      Epoch.pin, Epoch.unpin, List.erase_cons_head]

/-- Claim C9: cloning a view duplicates the (set-core reference, guard)
pair with protection independent of the original: after pinning a view,
cloning it and dropping the original, the clone still references the
same core, its guard is live, and a `get` through the clone is an access
under a live guard, never to a released one. -/
theorem c9_clone_drop_get_safe (s : HashSet T) (e : Epoch) (v : T) :
    ((cloneDropScenario s e).1.set = s) ∧
    (Guard.live (cloneDropScenario s e).1.guard.deref
      (cloneDropScenario s e).2 = true) ∧
    ((cloneDropScenario s e).1.get_protected v (cloneDropScenario s e).2
      = some ((cloneDropScenario s e).1.get v)) := by
  have hne : e.next + 1 ≠ e.next := Nat.succ_ne_self e.next
  have hlive : Guard.live (cloneDropScenario s e).1.guard.deref
      (cloneDropScenario s e).2 = true := by
    simp [cloneDropScenario, HashSet.pin, HashSet.guard, Epoch.pin,
      HashSetRef.clone, GuardRef.clone, HashSetRef.drop, Epoch.unpin,
      Guard.live, GuardRef.deref, List.elem_iff, List.mem_erase_of_ne hne]
  refine ⟨rfl, hlive, ?_⟩
  simp [HashSetRef.get_protected, hlive]

omit [DecidableEq T] in
/-- Claim C10: iterating a view through the `IntoIterator` implementation
on a view reference yields exactly `iter()`: both are the same delegation
to the set core's iteration under the held guard. -/
theorem c10_into_iter_eq_iter (r : HashSetRef T) :
    r.into_iter = r.iter ∧ r.into_iter = r.set.iter r.guard.deref :=
  ⟨rfl, rfl⟩

end Flurry
